import Mathlib

/-!
Verification development for the HTML-corpus audit tools
(`new_ToolLinkChecker.py`, `ToolCheckNote.py`, `ToolCheckBullets.py`,
`ToolNavigationPath.py`).

Python strings are modelled as `List Char` (the tools only manipulate
ASCII data; `str.lower` is modelled on its ASCII fragment, which is the
fragment exercised by every input the tools see).  Parsed HTML documents
are modelled as a tree type `Node`, mirroring the BeautifulSoup tree the
code traverses; the structural parser itself is an external collaborator.
Network traffic (HEAD/GET probes, document listing and download) is
modelled by explicit oracle functions passed as arguments.
-/

set_option autoImplicit false

namespace Audit

/-- Coerce a Lean string literal to the `List Char` representation used
throughout the development. -/
def pyStr (s : String) : List Char := s.data

/-- ASCII fragment of Python `\s` class / `str.strip` whitespace. -/
def pyIsSpace (c : Char) : Bool :=
  c = ' ' || c = '\t' || c = '\n' || c = '\r' || c = '\x0b' || c = '\x0c'

/-- ASCII fragment of `str.lower` on a single character: map `A`-`Z`
(code points 65-90) to the letter 32 code points above. -/
def pyLowerChar (c : Char) : Char :=
  if 65 ≤ c.toNat ∧ c.toNat ≤ 90 then Char.ofNat (c.toNat + 32) else c

/-- `str.lower` (ASCII fragment). -/
def pyLower (l : List Char) : List Char := l.map pyLowerChar

/-- Python `pat in s` substring test. -/
def containsSub (pat : List Char) : List Char → Bool
  | [] => pat.isEmpty
  | c :: cs => pat.isPrefixOf (c :: cs) || containsSub pat cs

/-- Python `s.startswith(pat)`. -/
def pyStartsWith (pat l : List Char) : Bool := pat.isPrefixOf l

/-- Python `s.endswith(pat)`. -/
def pyEndsWith (pat l : List Char) : Bool := pat.isSuffixOf l

/-- Python `s.split(sep)[-1]` for a single-character separator: the
suffix of `l` following the last occurrence of `sep` (all of `l` when
`sep` does not occur). -/
def lastSegAfter (sep : Char) (l : List Char) : List Char :=
  (l.reverse.takeWhile (fun c => c ≠ sep)).reverse

theorem lastSegAfter_not_mem {sep : Char} {l : List Char} :
    sep ∉ lastSegAfter sep l := by
  intro h
  rw [lastSegAfter, List.mem_reverse] at h
  have := List.mem_takeWhile_imp h
  simp at this

theorem takeWhile_eq_self_of_all {p : Char → Bool} {l : List Char}
    (h : ∀ c ∈ l, p c = true) : l.takeWhile p = l := by
  induction l with
  | nil => rfl
  | cons c cs ih =>
    rw [List.takeWhile_cons, h c (by simp)]
    simp [ih fun d hd => h d (by simp [hd])]

theorem lastSegAfter_of_not_mem {sep : Char} {l : List Char}
    (h : sep ∉ l) : lastSegAfter sep l = l := by
  rw [lastSegAfter, takeWhile_eq_self_of_all, List.reverse_reverse]
  intro c hc
  simp only [decide_eq_true_eq]
  rintro rfl
  exact h (List.mem_reverse.mp hc)

theorem mem_of_mem_lastSegAfter {sep c : Char} {l : List Char}
    (h : c ∈ lastSegAfter sep l) : c ∈ l := by
  rw [lastSegAfter, List.mem_reverse] at h
  exact List.mem_reverse.mp ((List.takeWhile_sublist _).subset h)

theorem char_toNat_ofNat {n : Nat} (h : n.isValidChar) : (Char.ofNat n).toNat = n := by
  simp [Char.ofNat, dif_pos h, Char.ofNatAux, Char.toNat, UInt32.toNat]

theorem pyLowerChar_toNat_of_upper {c : Char} (h1 : 65 ≤ c.toNat) (h2 : c.toNat ≤ 90) :
    (pyLowerChar c).toNat = c.toNat + 32 := by
  rw [pyLowerChar, if_pos ⟨h1, h2⟩]
  exact char_toNat_ofNat (Or.inl (by omega))

theorem pyLowerChar_of_not_upper {c : Char} (h : ¬(65 ≤ c.toNat ∧ c.toNat ≤ 90)) :
    pyLowerChar c = c := if_neg h

theorem pyLowerChar_idem (c : Char) : pyLowerChar (pyLowerChar c) = pyLowerChar c := by
  by_cases h : 65 ≤ c.toNat ∧ c.toNat ≤ 90
  · have ht : (pyLowerChar c).toNat = c.toNat + 32 := pyLowerChar_toNat_of_upper h.1 h.2
    exact pyLowerChar_of_not_upper (by omega)
  · rw [pyLowerChar_of_not_upper h, pyLowerChar_of_not_upper h]

theorem pyLowerChar_eq_low {c d : Char} (hd : d.toNat < 65 ∨ 122 < d.toNat)
    (h : pyLowerChar c = d) : c = d := by
  by_cases hu : 65 ≤ c.toNat ∧ c.toNat ≤ 90
  · have := pyLowerChar_toNat_of_upper hu.1 hu.2
    rw [h] at this
    omega
  · rwa [pyLowerChar_of_not_upper hu] at h

theorem pyLower_eq_self {l : List Char}
    (h : ∀ c ∈ l, pyLowerChar c = c) : pyLower l = l := by
  rw [pyLower]
  rw [List.map_congr_left h]
  exact List.map_id l

/-- Python `s.split(c, 1)[0]`: the prefix before the first occurrence of
`c` (all of `l` when `c` does not occur). -/
def beforeFirst (c : Char) (l : List Char) : List Char :=
  l.takeWhile (fun d => d ≠ c)

/-! ### `urllib.parse.urlparse(href).path`

Model of the path component produced by CPython `urlsplit`/`urlparse`
on the ASCII inputs the link checker sees: scheme detection, netloc
removal, fragment and query splitting, and `;params` removal from the
last path segment. -/

/-- Characters CPython accepts inside a URL scheme. -/
def isSchemeChar (c : Char) : Bool :=
  c.isAlpha || c.isDigit || c = '+' || c = '-' || c = '.'

/-- `urlsplit` scheme detection: split `scheme:` off the front when the
prefix before the first `:` is nonempty, starts with a letter and
consists of scheme characters.  Returns `(lower-cased scheme, rest)`. -/
def pySplitScheme (l : List Char) : List Char × List Char :=
  let pre := l.takeWhile (fun d => d ≠ ':')
  if pre.length < l.length ∧ 0 < pre.length ∧ (pre.headD ' ').isAlpha ∧
      pre.all isSchemeChar then
    (pyLower pre, (l.dropWhile (fun d => d ≠ ':')).drop 1)
  else
    ([], l)

/-- `urlsplit` netloc removal: when the (scheme-stripped) URL starts with
`//`, drop the authority up to the next `/`, `?` or `#`. -/
def pyDropNetloc (l : List Char) : List Char :=
  if pyStartsWith (pyStr "//") l then
    (l.drop 2).dropWhile (fun c => c ≠ '/' && c ≠ '?' && c ≠ '#')
  else l

/-- Schemes for which `urlparse` strips `;params` from the last path
segment (restricted to the members of CPython `uses_params` list that
can occur here; the empty scheme of a relative reference is one). -/
def usesParams (scheme : List Char) : Bool :=
  scheme = [] || scheme = pyStr "http" || scheme = pyStr "https" ||
    scheme = pyStr "ftp"

/-- The `urlparse` helper `_splitparams`: cut the part of the last `/`-segment
from its first `;` on. -/
def pyDropParams (l : List Char) : List Char :=
  (l.reverse.dropWhile (fun c => c ≠ '/')).reverse ++
    beforeFirst ';' (l.reverse.takeWhile (fun c => c ≠ '/')).reverse

/-- The `.path` field of `urllib.parse.urlparse(href)`. -/
def pyUrlparsePath (href : List Char) : List Char :=
  let (scheme, u1) := pySplitScheme href
  let u2 := pyDropNetloc u1
  let u3 := beforeFirst '#' u2
  let u4 := beforeFirst '?' u3
  if usesParams scheme && containsSub (pyStr ";") u4 then pyDropParams u4 else u4

/-! ### Link-checker and index normalizations (`new_ToolLinkChecker.py`) -/

/-- `normalize_html_href` (new_ToolLinkChecker.py lines 207-209):
`urllib.parse.urlparse(href).path.split("/")[-1].lower()`. -/
def normalize_html_href (href : List Char) : List Char :=
  pyLower (lastSegAfter '/' (pyUrlparsePath href))

/-- Stated from the words of the spec (§4.1, claim C1): take the basename of
the path of the target, lower-case it, and reduce it to the last
underscore-delimited segment.  This is the normalization the spec says
`normalize_html_href` performs; the theorems below compare it with the
embedding of the source function `normalize_html_href` above. -/
def specNormalizeHref (s : List Char) : List Char :=
  lastSegAfter '_' (pyLower (lastSegAfter '/' s))

/-- The composite logical-name normalization described in the spec
(basename, lower-case, last underscore segment), as applied by
`build_html_document_index` to each listed file name. -/
def logicalNormalize (s : List Char) : List Char :=
  lastSegAfter '_' (pyLower (lastSegAfter '/' s))

/-! ### The logical document index (`build_html_document_index`) -/

/-- One entry of the collection listing as produced by
`list_all_html_files_in_collection`: the dict
`{"id": item.get("id"), "file_name": item.get("file_name")}`, either
value possibly `None`. -/
structure Item where
  id : Option Int
  file_name : Option (List Char)
deriving DecidableEq

/-- `index.setdefault(logical, []).append(fid)` on an insertion-ordered
dict modelled as an association list with unique keys. -/
def dictSetdefaultAppend (d : List (List Char × List Int)) (k : List Char)
    (v : Int) : List (List Char × List Int) :=
  match d with
  | [] => [(k, [v])]
  | (k', vs) :: rest =>
    if k' = k then (k', vs ++ [v]) :: rest
    else (k', vs) :: dictSetdefaultAppend rest k v

/-- `dict.get(key, [])`. -/
def dictGet (d : List (List Char × List Int)) (k : List Char) : List Int :=
  match d with
  | [] => []
  | (k', vs) :: rest => if k' = k then vs else dictGet rest k

/-- The loop body of `build_html_document_index`: skip entries whose
`file_name` or `id` is falsy, lower-case the basename, and when it ends
in `.html` append the id to the bucket of the last underscore segment. -/
def indexStep (index : List (List Char × List Int)) (it : Item) :
    List (List Char × List Int) :=
  match it.file_name, it.id with
  | some name, some fid =>
    if name ≠ [] ∧ fid ≠ 0 then
      let base := pyLower (lastSegAfter '/' name)
      if pyEndsWith (pyStr ".html") base then
        dictSetdefaultAppend index (lastSegAfter '_' base) fid
      else index
    else index
  | _, _ => index

/-- `build_html_document_index` (new_ToolLinkChecker.py lines 91-125)
over an already-fetched listing. -/
def build_html_document_index (items : List Item) : List (List Char × List Int) :=
  items.foldl indexStep []

/-- Every id stored in any bucket of the index is nonzero. -/
def IndexNonzero (d : List (List Char × List Int)) : Prop :=
  ∀ p ∈ d, ∀ i ∈ p.2, i ≠ 0


/-! ### Parsed documents

The structural parser (BeautifulSoup) is an external collaborator; the
engine consumes the navigable tree it produces.  A `Node` is either an
element with a tag name, an attribute list and children, or a text node
(entity references already decoded by the parser, as BeautifulSoup does).
The children form a `NodeList` (an inductively defined list, so that all
traversals are structurally recursive and computable by the kernel).  A
whole document is represented by its root node; searches from the root
(`soup.find_all(...)`) scan the descendants of the root in document
order. -/
mutual
inductive Node where
  | elem (name : List Char) (attrs : List (List Char × List Char)) (children : NodeList)
  | text (s : List Char)
inductive NodeList where
  | nil
  | cons (head : Node) (tail : NodeList)
end

/-- Build a `NodeList` from a `List Node`. -/
def nl : List Node → NodeList
  | [] => .nil
  | n :: rest => .cons n (nl rest)

/-- All element nodes inside the given forest, in document (preorder)
order. -/
def forestElems : NodeList → List Node
  | .nil => []
  | .cons (.text _) rest => forestElems rest
  | .cons (.elem n a cs) rest => .elem n a cs :: (forestElems cs ++ forestElems rest)

/-- All text-node contents inside the given forest, in document order. -/
def forestTexts : NodeList → List (List Char)
  | .nil => []
  | .cons (.text s) rest => s :: forestTexts rest
  | .cons (.elem _ _ cs) rest => forestTexts cs ++ forestTexts rest

/-- All text-node contents of one node, in document order. -/
def nodeTexts : Node → List (List Char)
  | .text s => [s]
  | .elem _ _ cs => forestTexts cs

/-- `element.get(key)`: the first attribute with the given name. -/
def getAttr? (attrs : List (List Char × List Char)) (key : List Char) :
    Option (List Char) :=
  match attrs with
  | [] => none
  | (k, v) :: rest => if k = key then some v else getAttr? rest key

/-- Python `s.strip()` (ASCII whitespace). -/
def pyStrip (l : List Char) : List Char :=
  ((l.dropWhile pyIsSpace).reverse.dropWhile pyIsSpace).reverse

/-- Prepend a character to the first part of a split result (the empty
result gets a fresh one-character part). -/
def consPart (c : Char) : List (List Char) → List (List Char)
  | [] => [[c]]
  | p :: ps => (c :: p) :: ps

/-- Worker for Python `s.split()`: the flag records whether the scan is
inside a word; on leaving a word an empty continuation part is opened so
that the consumed characters of the word are prepended to it. -/
def pyWordsAux : Bool → List Char → List (List Char)
  | true, [] => [[]]
  | false, [] => []
  | true, c :: cs =>
    if pyIsSpace c then [] :: pyWordsAux false cs
    else consPart c (pyWordsAux true cs)
  | false, c :: cs =>
    if pyIsSpace c then pyWordsAux false cs
    else consPart c (pyWordsAux true cs)

/-- Python `s.split()`: whitespace-separated tokens, no empty tokens. -/
def pyWords (l : List Char) : List (List Char) := pyWordsAux false l

/-- The multi-valued `class` attribute as BeautifulSoup reports it:
the attribute value split on whitespace (`[]` when absent). -/
def pyClasses (attrs : List (List Char × List Char)) : List (List Char) :=
  match getAttr? attrs (pyStr "class") with
  | none => []
  | some v => pyWords v

/-- `soup.find_all` restricted to element nodes satisfying `p`:
the descendants of the root, in document order. -/
def soupFindAll (p : Node → Bool) (soup : Node) : List Node :=
  match soup with
  | .text _ => []
  | .elem _ _ cs => (forestElems cs).filter p

/-- All text contents of a document, in document order (used to state
claims about marker occurrences). -/
def soupTexts (soup : Node) : List (List Char) := nodeTexts soup

/-- `element.get_text()`: concatenation of all contained strings. -/
def getTextPlain (n : Node) : List Char := (nodeTexts n).flatten

/-- `element.get_text(sep, strip=True)`: the stripped non-empty contained
strings joined by `sep`. -/
def getTextStrip (sep : List Char) (n : Node) : List Char :=
  List.intercalate sep (((nodeTexts n).map pyStrip).filter (fun s => !s.isEmpty))


/-! ### Link extraction and checking (`link_checker_single_html`) -/

/-- The ASCII single-quote character, used inside diagnostic messages. -/
def sq : Char := Char.ofNat 39

/-- The tuple `excluded_exts` of `link_checker_single_html` (line 160):
extensions whose references are skipped at extraction time.  Note that
the corpus document extension `.html` is a member. -/
def excludedExts : List (List Char) :=
  [pyStr ".html", pyStr ".css", pyStr ".js", pyStr ".svg", pyStr ".png",
   pyStr ".jpg", pyStr ".jpeg", pyStr ".gif", pyStr ".ico"]

/-- `href.lower().endswith(excluded_exts)`. -/
def endsWithExcluded (href : List Char) : Bool :=
  excludedExts.any (fun e => pyEndsWith e (pyLower href))

/-- One extracted reference: its raw target and display text. -/
structure LinkInfo where
  href : List Char
  text : List Char
deriving DecidableEq

/-- `find_all(name, attr=True)` membership test. -/
def isTagWithAttr (nm key : List Char) : Node → Bool
  | .elem n attrs _ => n = nm && (getAttr? attrs key).isSome
  | .text _ => false

/-- Anchor extraction loop of `link_checker_single_html` (lines 165-175). -/
def anchorLinks (soup : Node) : List LinkInfo :=
  (soupFindAll (isTagWithAttr (pyStr "a") (pyStr "href")) soup).filterMap fun a =>
    match a with
    | .elem _ attrs _ =>
      let href := (getAttr? attrs (pyStr "href")).getD []
      if href.isEmpty || pyStartsWith (pyStr "javascript:") href ||
          pyStartsWith (pyStr "mailto:") href || href = pyStr "#" then none
      else if endsWithExcluded href then none
      else
        let t := (getTextStrip [] a).take 50
        some ⟨href, if t.isEmpty then pyStr "Link" else t⟩
    | .text _ => none

/-- Resource-link extraction loop (lines 178-186). -/
def resourceLinks (soup : Node) : List LinkInfo :=
  (soupFindAll (isTagWithAttr (pyStr "link") (pyStr "href")) soup).filterMap fun t =>
    match t with
    | .elem _ attrs _ =>
      let href := (getAttr? attrs (pyStr "href")).getD []
      if href.isEmpty || endsWithExcluded href then none
      else some ⟨href, pyStr "CSS/Resource link"⟩
    | .text _ => none

/-- Image extraction loop (lines 189-197). -/
def imageLinks (soup : Node) : List LinkInfo :=
  (soupFindAll (isTagWithAttr (pyStr "img") (pyStr "src")) soup).filterMap fun t =>
    match t with
    | .elem _ attrs _ =>
      let src := (getAttr? attrs (pyStr "src")).getD []
      if src.isEmpty || endsWithExcluded src then none
      else
        let a := ((getAttr? attrs (pyStr "alt")).getD (pyStr "Image")).take 50
        some ⟨src, if a.isEmpty then pyStr "Image" else a⟩
    | .text _ => none

/-- All references extracted from one document, in extraction order. -/
def extractLinks (soup : Node) : List LinkInfo :=
  anchorLinks soup ++ resourceLinks soup ++ imageLinks soup

/-- The de-duplication loop (lines 199-205): keep the first occurrence of
each raw href. -/
def dedupLinks : List LinkInfo → List (List Char) → List LinkInfo
  | [], _ => []
  | l :: ls, seen =>
    if l.href ∈ seen then dedupLinks ls seen
    else l :: dedupLinks ls (l.href :: seen)

/-- `unique_links` of `link_checker_single_html`. -/
def uniqueLinks (soup : Node) : List LinkInfo := dedupLinks (extractLinks soup) []

/-- Status values of a check result: `None`, an integer HTTP status, or a
string such as `"Timeout"` or `"Ambiguous"`. -/
inductive StatusV where
  | noneV
  | code (n : Nat)
  | strv (s : List Char)
deriving DecidableEq

/-- Outcome of one network request, as seen through the `requests`
exception model: a status code, a timeout, a connection error, or
another request error. -/
inductive ProbeOutcome where
  | status (code : Nat)
  | timeout
  | connError
  | reqError (msg : List Char)
deriving DecidableEq

/-- Network oracle: the outcome of a HEAD or GET request per URL. -/
structure Net where
  head : List Char → ProbeOutcome
  get : List Char → ProbeOutcome

/-- Decimal rendering of a status code (the f-string `f"HTTP {code}"`). -/
def natStr (n : Nat) : List Char := (toString n).data

/-- A hexadecimal digit value. -/
def hexVal? (c : Char) : Option Nat :=
  if 48 ≤ c.toNat ∧ c.toNat ≤ 57 then some (c.toNat - 48)
  else if 97 ≤ c.toNat ∧ c.toNat ≤ 102 then some (c.toNat - 87)
  else if 65 ≤ c.toNat ∧ c.toNat ≤ 70 then some (c.toNat - 55)
  else none

/-- `urllib.parse.unquote` on ASCII input: decode `%XX` escapes. -/
def pyUnquote : List Char → List Char
  | [] => []
  | '%' :: a :: b :: rest =>
    (match hexVal? a, hexVal? b with
     | some x, some y => Char.ofNat (16 * x + y) :: pyUnquote rest
     | _, _ => '%' :: pyUnquote (a :: b :: rest))
  | c :: rest => c :: pyUnquote rest

/-- `href.replace("\\", "/")`. -/
def backslashToSlash (l : List Char) : List Char :=
  l.map fun c => if c = '\\' then '/' else c

/-- `resolve_url` (lines 238-250). -/
def resolve_url (sourceFile href : List Char) : List Char :=
  if pyStartsWith (pyStr "http://") href || pyStartsWith (pyStr "https://") href then
    href
  else if pyStartsWith (pyStr "#") href then sourceFile ++ href
  else backslashToSlash (pyUnquote href)

/-- The `(status, is_broken, error)` triple returned by
`resolve_local_html`. -/
structure LocalResolution where
  status : StatusV
  is_broken : Bool
  error : List Char
deriving DecidableEq

/-- `resolve_local_html` (lines 212-235): look the normalized logical
name up in the index and classify by the number of matches. -/
def resolve_local_html (index : List (List Char × List Int))
    (href : List Char) : LocalResolution :=
  let logical := normalize_html_href href
  let found := dictGet index logical
  if found.length = 1 then ⟨.code 200, false, []⟩
  else if 1 < found.length then
    ⟨.strv (pyStr "Ambiguous"), true,
      pyStr "Multiple documents resolve to " ++ [sq] ++ logical ++ [sq]⟩
  else
    ⟨.code 404, true,
      pyStr "Logical HTML " ++ [sq] ++ logical ++ [sq] ++
        pyStr " not found in collection"⟩

/-- One entry of the per-link result dict built by `check_link`. -/
structure CheckResult where
  file : List Char
  href : List Char
  text : List Char
  resolved_url : List Char
  status : StatusV
  error : List Char
  is_broken : Bool
deriving DecidableEq

/-- `check_link` (lines 252-313): external URLs are probed via HEAD with
a GET retry on status ≥ 400; `#`-fragments are healthy; targets whose
lower-cased href contains `.html` are resolved against the index; all
other local paths are `"Not Validated"`. -/
def check_link (net : Net) (index : List (List Char × List Int))
    (sourceFile : List Char) (link : LinkInfo) : CheckResult :=
  let href := link.href
  let base : CheckResult :=
    { file := sourceFile, href := href, text := link.text,
      resolved_url := resolve_url sourceFile href,
      status := .noneV, error := [], is_broken := false }
  if pyStartsWith (pyStr "http://") href || pyStartsWith (pyStr "https://") href then
    match net.head href with
    | .status c =>
      if 400 ≤ c then
        match net.get href with
        | .status c2 =>
          { base with
            status := .code c2
            is_broken := decide (400 ≤ c2)
            error := if 400 ≤ c2 then pyStr "HTTP " ++ natStr c2 else [] }
        | .timeout =>
          { base with
            status := .strv (pyStr "Timeout")
            is_broken := true
            error := pyStr "Request timed out" }
        | .connError =>
          { base with
            status := .strv (pyStr "Connection Error")
            is_broken := true
            error := pyStr "Failed to establish connection" }
        | .reqError m =>
          { base with
            status := .strv (pyStr "Request Error")
            is_broken := true
            error := m }
      else { base with status := .code c, is_broken := false }
    | .timeout =>
      { base with
        status := .strv (pyStr "Timeout")
        is_broken := true
        error := pyStr "Request timed out" }
    | .connError =>
      { base with
        status := .strv (pyStr "Connection Error")
        is_broken := true
        error := pyStr "Failed to establish connection" }
    | .reqError m =>
      { base with
        status := .strv (pyStr "Request Error")
        is_broken := true
        error := m }
  else if pyStartsWith (pyStr "#") href then
    { base with status := .code 200, is_broken := false }
  else if containsSub (pyStr ".html") (pyLower href) then
    let r := resolve_local_html index href
    { base with status := r.status, is_broken := r.is_broken, error := r.error }
  else
    { base with
      status := .strv (pyStr "Not Validated")
      is_broken := true
      error := pyStr "Local path cannot be verified without base URL" }

/-- One entry of the list returned by `link_checker_single_html`
(lines 322-332): the fields of a broken result, without `is_broken`. -/
structure OutEntry where
  file : List Char
  href : List Char
  resolved_url : List Char
  status : StatusV
  error : List Char
  text : List Char
deriving DecidableEq

/-- `link_checker_single_html` (lines 127-332) on an already-parsed
document: extract, de-duplicate, check every link, and return only the
broken entries. -/
def link_checker_single_html (net : Net) (index : List (List Char × List Int))
    (soup : Node) (sourceFile : List Char) : List OutEntry :=
  let results := (uniqueLinks soup).map (check_link net index sourceFile)
  (results.filter (fun r => r.is_broken)).map fun r =>
    { file := r.file, href := r.href, resolved_url := r.resolved_url,
      status := r.status, error := r.error, text := r.text }

/-! ### Listing and the whole-collection scan -/

/-- One page of the collection listing as returned by the document
store: the reported `total_count` and the page items (`none` models a
non-dict item, discarded by the comprehension guard). -/
structure RawPage where
  total_count : Nat
  items : List (Option Item)

/-- `list_all_html_files_in_collection` (lines 13-67) over a page
oracle: return `[]` when the first page reports `total_count == 0`,
otherwise collect `ceil(total_count / page_size)` pages. -/
def list_all_html_files_in_collection (fetchPage : Nat → RawPage)
    (page_size : Nat) : List Item :=
  let first := fetchPage 1
  if first.total_count = 0 then []
  else
    let totalPages := (first.total_count + page_size - 1) / page_size
    let items := first.items ++
      ((List.range (totalPages - 1)).map fun i => (fetchPage (i + 2)).items).flatten
    items.filterMap id

/-- `html_link_validation_in_collection_by_id` (lines 334-435): list the
collection, build the index once from the same deterministic listing,
download and check every document, and concatenate the per-file broken
entries. -/
def html_link_validation_in_collection_by_id (net : Net)
    (fetchPage : Nat → RawPage) (content : Option Int → Node) : List OutEntry :=
  let html_items := list_all_html_files_in_collection fetchPage 100
  let index := build_html_document_index
    (list_all_html_files_in_collection fetchPage 100)
  (html_items.map fun item =>
    link_checker_single_html net index (content item.id)
      (item.file_name.getD [])).flatten

/-! ### Probe-count instrumentation (claim C3)

`check_link` issues one HEAD request for every external link it is
invoked on, plus one GET when the HEAD outcome is a status ≥ 400.  The
following counters record, straight from the structure of the scan, how
many `check_link` invocations and how many network requests target a
given URL. -/

/-- The external-URL test of `check_link`. -/
def isExternalHref (href : List Char) : Bool :=
  pyStartsWith (pyStr "http://") href || pyStartsWith (pyStr "https://") href

/-- How many of the de-duplicated links of one document have the given
raw target (each is passed to `check_link` exactly once). -/
def checkCountForTarget (soup : Node) (u : List Char) : Nat :=
  ((uniqueLinks soup).filter (fun l => l.href = u)).length

/-- Network requests issued by one `check_link` invocation on an
external target: the HEAD, plus the GET retry on a status ≥ 400. -/
def requestsPerCheck (net : Net) (u : List Char) : Nat :=
  match net.head u with
  | .status c => if 400 ≤ c then 2 else 1
  | _ => 1

/-- Total `check_link` invocations on the external target `u` during one
whole-collection scan. -/
def scanExternalCheckCount (fetchPage : Nat → RawPage)
    (content : Option Int → Node) (u : List Char) : Nat :=
  if isExternalHref u then
    ((list_all_html_files_in_collection fetchPage 100).map fun item =>
      checkCountForTarget (content item.id) u).sum
  else 0

/-- Total network requests issued for the external target `u` during one
whole-collection scan. -/
def scanProbeRequestCount (net : Net) (fetchPage : Nat → RawPage)
    (content : Option Int → Node) (u : List Char) : Nat :=
  scanExternalCheckCount fetchPage content u * requestsPerCheck net u

/-! ### Note placement (`ToolCheckNote.py`) -/

/-- The literal marker the note rule searches for. -/
def noteMarker : List Char := pyStr "Note:"

/-- Does some individual class of the element match `re.compile(r"Note")`
(a search, hence a substring test)? -/
def hasNoteClass (attrs : List (List Char × List Char)) : Bool :=
  (pyClasses attrs).any (fun c => containsSub (pyStr "Note") c)

/-- Is the element a `div` whose class list matches the `Note` regex? -/
def isNoteDiv (name : List Char) (attrs : List (List Char × List Char)) : Bool :=
  name = pyStr "div" && hasNoteClass attrs

/-- The first loop of `check_single_file_note` (lines 107-109): is the
marker contained in the text of some `div` with a `Note`-matching
class? -/
def foundNoteInNoteDiv (soup : Node) : Bool :=
  (soupFindAll (fun n => match n with
    | .elem nm attrs _ => isNoteDiv nm attrs
    | .text _ => false) soup).any
    (fun d => containsSub noteMarker (getTextPlain d))

/-!
The second loop of `check_single_file_note` (lines 112-117), as a tree
recursion.  For every text node containing the marker, with parent
element `p`: the document is flagged when `p` has no strict ancestor
that is a `Note`-matching `div` (`find_parent`) and the class list of
`p` is not exactly `["Note"]`.  The Boolean argument threads whether
some strict ancestor of the current element is a `Note`-matching
`div`.
-/
mutual
def noteOutsideNode (anc : Bool) : Node → Bool
  | .text _ => false
  | .elem nm attrs cs =>
    noteOutsideChildren anc (pyClasses attrs) (anc || isNoteDiv nm attrs) cs
def noteOutsideChildren (ancSelf : Bool) (pcls : List (List Char))
    (ancChild : Bool) : NodeList → Bool
  | .nil => false
  | .cons (.text s) rest =>
    (containsSub noteMarker s && !ancSelf &&
      !(decide (pcls = [pyStr "Note"]))) ||
    noteOutsideChildren ancSelf pcls ancChild rest
  | .cons (.elem nm attrs cs) rest =>
    noteOutsideNode ancChild (.elem nm attrs cs) ||
    noteOutsideChildren ancSelf pcls ancChild rest
end

/-- `found_note_outside_note_div` for a whole parsed document. -/
def foundNoteOutside (soup : Node) : Bool := noteOutsideNode false soup

/-- The record returned by `check_single_file_note`. -/
structure NoteResult where
  file : List Char
  status : List Char
  error : List Char
  note_inside_box : Bool
  note_outside_box : Bool
deriving DecidableEq

/-- `check_single_file_note` (ToolCheckNote.py lines 91-138). -/
def check_single_file_note (soup : Node) (sourceFile : List Char) : NoteResult :=
  let inside := foundNoteInNoteDiv soup
  if foundNoteOutside soup then
    ⟨sourceFile, pyStr "Invalid",
      [sq] ++ noteMarker ++ [sq] ++ pyStr " found outside designated grey box",
      inside, true⟩
  else
    ⟨sourceFile, pyStr "Valid", [], inside, false⟩

/-- `check_note` (lines 140-172) over an already-fetched listing and a
content oracle: keep only the `Invalid` per-document records. -/
def check_note (items : List Item) (content : Option Int → Node) :
    List NoteResult :=
  (items.map fun item =>
    check_single_file_note (content item.id) (item.file_name.getD [])).filter
    (fun r => r.status = pyStr "Invalid")

/-- One marker occurrence, described independently of the flag-threading
recursion: the text content, the class list of the immediate parent
element, and the `(name, classes)` pairs of the strict ancestors of that
parent. -/
structure NoteOcc where
  textContent : List Char
  parentClasses : List (List Char)
  ancestors : List (List Char × List (List Char))
deriving DecidableEq

/-!
All marker occurrences of a document with their contexts, collected by
the same traversal shape as the flag recursion above but retaining the
full ancestor context of every occurrence.
-/
mutual
def noteOccsNode (anc : List (List Char × List (List Char))) :
    Node → List NoteOcc
  | .text _ => []
  | .elem nm attrs cs =>
    noteOccsChildren anc (pyClasses attrs) ((nm, pyClasses attrs) :: anc) cs
def noteOccsChildren (ancSelf : List (List Char × List (List Char)))
    (pcls : List (List Char))
    (ancChild : List (List Char × List (List Char))) :
    NodeList → List NoteOcc
  | .nil => []
  | .cons (.text s) rest =>
    (if containsSub noteMarker s then [⟨s, pcls, ancSelf⟩] else []) ++
    noteOccsChildren ancSelf pcls ancChild rest
  | .cons (.elem nm attrs cs) rest =>
    noteOccsNode ancChild (.elem nm attrs cs) ++
    noteOccsChildren ancSelf pcls ancChild rest
end

/-- The marker occurrences of a whole document. -/
def noteOccurrences (soup : Node) : List NoteOcc := noteOccsNode [] soup

/-- Does the ancestor list contain a `Note`-matching `div`? -/
def ancHasNoteDiv (al : List (List Char × List (List Char))) : Bool :=
  al.any (fun p => p.1 = pyStr "div" &&
    p.2.any (fun c => containsSub (pyStr "Note") c))

/-- An occurrence is compliant when the parent has a `Note`-matching
`div` strict ancestor, or the parent class list is exactly `["Note"]`. -/
def occCompliant (o : NoteOcc) : Bool :=
  ancHasNoteDiv o.ancestors || decide (o.parentClasses = [pyStr "Note"])

/-! ### Bullet alignment (`ToolCheckBullets.py`) -/

/-- ASCII decimal digit test (the regex class `\d`). -/
def isDigitC (c : Char) : Bool := 48 ≤ c.toNat && c.toNat ≤ 57

/-- The literal prefix of the margin regex. -/
def marginLit : List Char := pyStr "margin-left:"

/-- Match the regex tail `\s*(\d+(?:\.\d+)?)(pt|px)` at the start of
`l`, returning the two captured groups. -/
def marginTail? (l : List Char) : Option (List Char × List Char) :=
  let r := l.dropWhile pyIsSpace
  let d1 := r.takeWhile isDigitC
  let r1 := r.dropWhile isDigitC
  if d1.isEmpty then none
  else if pyStartsWith (pyStr "pt") r1 then some (d1, pyStr "pt")
  else if pyStartsWith (pyStr "px") r1 then some (d1, pyStr "px")
  else
    match r1 with
    | '.' :: r2 =>
      let d2 := r2.takeWhile isDigitC
      let r3 := r2.dropWhile isDigitC
      if d2.isEmpty then none
      else if pyStartsWith (pyStr "pt") r3 then some (d1 ++ '.' :: d2, pyStr "pt")
      else if pyStartsWith (pyStr "px") r3 then some (d1 ++ '.' :: d2, pyStr "px")
      else none
    | _ => none

/-- `re.search(r"margin-left:\s*(\d+(?:\.\d+)?)(pt|px)", style)`: try the
pattern at every position, left to right. -/
def pyMarginSearch : List Char → Option (List Char × List Char)
  | [] => none
  | c :: cs =>
    if pyStartsWith marginLit (c :: cs) then
      match marginTail? ((c :: cs).drop marginLit.length) with
      | some g => some g
      | none => pyMarginSearch cs
    else pyMarginSearch cs

/-- Match `(padding|line-height):\s*[^;]+` at the start of `l`; on
success return the captured property name and the length of the whole
match (the match extends to the first `;` or the end). -/
def propsMatch? (l : List Char) : Option (List Char × Nat) :=
  let try1 : List Char → Option Nat := fun rest =>
    match rest with
    | ':' :: d :: r1 =>
      if d = ';' then none
      else some (1 + 1 + ((r1.takeWhile (fun c => c ≠ ';')).length))
    | _ => none
  if pyStartsWith (pyStr "padding") l then
    match try1 (l.drop 7) with
    | some m => some (pyStr "padding", 7 + m)
    | none => none
  else if pyStartsWith (pyStr "line-height") l then
    match try1 (l.drop 11) with
    | some m => some (pyStr "line-height", 11 + m)
    | none => none
  else none

/-- `re.findall(r"(padding|line-height):\s*[^;]+", style)`: scan left to
right, never overlapping; the `Nat` argument skips the remainder of the
previous match. -/
def propsFindallAux : Nat → List Char → List (List Char)
  | _ + 1, [] => []
  | skip + 1, _ :: cs => propsFindallAux skip cs
  | 0, [] => []
  | 0, c :: cs =>
    match propsMatch? (c :: cs) with
    | some (g, m) => g :: propsFindallAux (m - 1) cs
    | none => propsFindallAux 0 cs

/-- All `(padding|line-height)` declaration matches in a style string. -/
def pyPropsFindall (l : List Char) : List (List Char) := propsFindallAux 0 l

/-- Rule 1 of the loop body of `check_bullets_in_single_file`
(lines 126-143): the margin findings of one element (as reason
strings). -/
def marginFindings (classes : List (List Char)) (style : List Char) :
    List (List Char) :=
  if classes.any (fun cls => containsSub (pyStr "List_") cls) then
    match pyMarginSearch style with
    | none => [pyStr "Missing margin-left property"]
    | some (v, u) =>
      if v ≠ pyStr "18" ∨ u ≠ pyStr "pt" then
        [pyStr "Invalid margin-left: " ++ v ++ u]
      else []
  else []

/-- Rule 2 of the loop body (lines 145-152): the padding/line-height
finding of one element. -/
def propFindings (style : List Char) : List (List Char) :=
  let found := pyPropsFindall style
  if found.isEmpty then []
  else [pyStr "Found problematic properties: " ++
    List.intercalate (pyStr ", ") found]

/-- The complete findings the loop body appends for one bullet element
with the given class list and style string. -/
def bulletElementFindings (classes : List (List Char)) (style : List Char) :
    List (List Char) :=
  marginFindings classes style ++ propFindings style

/-! ### Navigation paths (`ToolNavigationPath.py`) -/

/-- `html.unescape` restricted to the named references that occur in
this pipeline (`&amp;` `&gt;` `&lt;`, with semicolons); the `Nat`
argument skips the remainder of a recognized entity. -/
def pyUnescapeAux : Nat → List Char → List Char
  | _ + 1, [] => []
  | skip + 1, _ :: cs => pyUnescapeAux skip cs
  | 0, [] => []
  | 0, '&' :: rest =>
    if pyStartsWith (pyStr "amp;") rest then '&' :: pyUnescapeAux 4 rest
    else if pyStartsWith (pyStr "gt;") rest then '>' :: pyUnescapeAux 3 rest
    else if pyStartsWith (pyStr "lt;") rest then '<' :: pyUnescapeAux 3 rest
    else '&' :: pyUnescapeAux 0 rest
  | 0, c :: rest => c :: pyUnescapeAux 0 rest

/-- `html.unescape` (restricted model). -/
def pyUnescape (l : List Char) : List Char := pyUnescapeAux 0 l

/-- The canonical replacement the navigation code substitutes for every
separator occurrence. -/
def arrowRep : List Char := pyStr " &amp;gt; "

/-- The escaped arrow entity searched by the spacing check. -/
def arrowEnt : List Char := pyStr "&amp;gt;"

/-- Match the regex `\s*&gt;\s*|\s*>\s*` at the start of `l`; on success
return the length of the (greedy, first-alternative-preferring) match.
Backtracking cannot rescue a failed position: whitespace can never begin
`&gt;` or `>`, so testing after the maximal whitespace run is
complete. -/
def gtMatchLen? (l : List Char) : Option Nat :=
  let ws1 := (l.takeWhile pyIsSpace).length
  let r := l.dropWhile pyIsSpace
  if pyStartsWith (pyStr "&gt;") r then
    some (ws1 + 4 + ((r.drop 4).takeWhile pyIsSpace).length)
  else if pyStartsWith (pyStr ">") r then
    some (ws1 + 1 + ((r.drop 1).takeWhile pyIsSpace).length)
  else none

/-- `re.sub(r'\s*&gt;\s*|\s*>\s*', ' &amp;gt; ', l)`: non-overlapping
left-to-right substitution; the `Nat` argument skips the remainder of
the previous match. -/
def gtSubAux : Nat → List Char → List Char
  | _ + 1, [] => []
  | skip + 1, _ :: cs => gtSubAux skip cs
  | 0, [] => []
  | 0, c :: cs =>
    match gtMatchLen? (c :: cs) with
    | some m => arrowRep ++ gtSubAux (m - 1) cs
    | none => c :: gtSubAux 0 cs

/-- The separator canonicalization pass. -/
def gtSub (l : List Char) : List Char := gtSubAux 0 l

/-- `re.sub(r'\s+', ' ', l)`: collapse every whitespace run to a single
space (the flag records being inside a run). -/
def wsCollapseAux : Bool → List Char → List Char
  | _, [] => []
  | inRun, c :: cs =>
    if pyIsSpace c then
      (if inRun then [] else [' ']) ++ wsCollapseAux true cs
    else c :: wsCollapseAux false cs

/-- Whitespace-run collapsing. -/
def wsCollapse (l : List Char) : List Char := wsCollapseAux false l

/-- The designated breadcrumb container class. -/
def stepClass : List Char := pyStr "Step_1"

/-- The per-child extraction loop over the children of one `Step_1` div
(lines 118-137): a non-blank text child contributes its unescaped,
separator-canonicalized text; an element child contributes its
`get_text(" ", strip=True)` (the `Command_002c_menucascade_002c_uicontrol`
class test appends the same text in both branches and is a no-op). -/
def navParts : NodeList → List (List Char)
  | .nil => []
  | .cons (.text s) rest =>
    (if (pyStrip s).isEmpty then [] else [gtSub (pyUnescape s)]) ++ navParts rest
  | .cons (.elem nm attrs cs) rest =>
    getTextStrip (pyStr " ") (.elem nm attrs cs) :: navParts rest

/-- Join and normalize one breadcrumb path (lines 139-150): join the
parts with spaces, collapse runs and strip, unescape once more, rewrite
every remaining separator glyph to ` &amp;gt; `, collapse and strip
again.  `none` when the div contributed no parts. -/
def navPathOfDiv (cs : NodeList) : Option (List Char) :=
  let parts := navParts cs
  if parts.isEmpty then none
  else
    let c1 := List.intercalate (pyStr " ") parts
    let c2 := pyStrip (wsCollapse c1)
    let c3 := pyUnescape c2
    let c4 := gtSub c3
    some (pyStrip (wsCollapse c4))

/-- All navigation paths extracted from one document. -/
def navPathsOfSoup (soup : Node) : List (List Char) :=
  (soupFindAll (fun n => match n with
    | .elem nm attrs _ => nm = pyStr "div" && decide (stepClass ∈ pyClasses attrs)
    | _ => false) soup).filterMap fun d =>
    match d with
    | .elem _ _ cs => navPathOfDiv cs
    | _ => none

/-- `str.replace(pat, rep)`: non-overlapping left-to-right replacement;
the `Nat` argument skips the remainder of the previous match. -/
def replaceAllAux (pat rep : List Char) : Nat → List Char → List Char
  | _ + 1, [] => []
  | skip + 1, _ :: cs => replaceAllAux pat rep skip cs
  | 0, [] => []
  | 0, c :: cs =>
    if pat.isPrefixOf (c :: cs) && !pat.isEmpty then
      rep ++ replaceAllAux pat rep (pat.length - 1) cs
    else c :: replaceAllAux pat rep 0 cs

/-- `str.replace`. -/
def pyReplaceAll (pat rep l : List Char) : List Char := replaceAllAux pat rep 0 l

/-- The spacing check (lines 161-167): the path is flagged when it
contains `&amp;gt;` and some occurrence survives the replacement of
every properly spaced ` &amp;gt; ` by ` [ARROW] `. -/
def navIncorrectSpacing (navPath : List Char) : Bool :=
  containsSub arrowEnt navPath &&
    containsSub arrowEnt (pyReplaceAll (pyStr " &amp;gt; ") (pyStr " [ARROW] ") navPath)

/-- Match the split regex `\s*&amp;gt;\s*` at the start of `l`,
returning the length of the greedy match. -/
def arrowSepLen? (l : List Char) : Option Nat :=
  let ws1 := (l.takeWhile pyIsSpace).length
  let r := l.dropWhile pyIsSpace
  if pyStartsWith arrowEnt r then
    some (ws1 + 8 + ((r.drop 8).takeWhile pyIsSpace).length)
  else none

/-- `re.split(r'\s*&amp;gt;\s*', l)`: the parts between separator
matches; the `Nat` argument skips the remainder of the previous
separator match. -/
def arrowSplitAux : Nat → List Char → List (List Char)
  | _ + 1, [] => [[]]
  | skip + 1, _ :: cs => arrowSplitAux skip cs
  | 0, [] => [[]]
  | 0, c :: cs =>
    match arrowSepLen? (c :: cs) with
    | some m => [] :: arrowSplitAux (m - 1) cs
    | none => consPart c (arrowSplitAux 0 cs)

/-- `re.split` on the canonical separator. -/
def arrowSplit (l : List Char) : List (List Char) := arrowSplitAux 0 l

/-- The sub-word separator class ``[\/\\\-_'\(\)]``. -/
def subWordSep (c : Char) : Bool :=
  c = '/' || c = '\\' || c = '-' || c = '_' || c = sq || c = '(' || c = ')'

/-- `re.split` on a single-character class, keeping empty parts. -/
def splitOnPred (p : Char → Bool) : List Char → List (List Char)
  | [] => [[]]
  | c :: cs => if p c then [] :: splitOnPred p cs else consPart c (splitOnPred p cs)

/-- Number of ASCII uppercase letters. -/
def countUpper (l : List Char) : Nat :=
  (l.filter (fun c => 65 ≤ c.toNat && c.toNat ≤ 90)).length

/-- Number of ASCII lowercase letters. -/
def countLower (l : List Char) : Nat :=
  (l.filter (fun c => 97 ≤ c.toNat && c.toNat ≤ 122)).length

/-- The camel-likeness regex `(?=.*[A-Z].*[A-Z])(?=.*[a-z])` searched in
a sub-word: at least two uppercase and at least one lowercase letter. -/
def isCamelLike (w : List Char) : Bool :=
  2 ≤ countUpper w && 1 ≤ countLower w

/-- Order-preserving de-duplication of collected camel-case words. -/
def dedupStr : List (List Char) → List (List Char) → List (List Char)
  | [], _ => []
  | w :: ws, seen => if w ∈ seen then dedupStr ws seen else w :: dedupStr ws (w :: seen)

/-- The camel-case words of one path (lines 169-180): split on the
canonical separator, on whitespace and on the sub-word separator class,
keep the camel-like sub-words, first occurrence first. -/
def camelWordsOfPath (navPath : List Char) : List (List Char) :=
  dedupStr
    ((((arrowSplit navPath).map fun part =>
      (pyWords part).map fun w =>
        (splitOnPred subWordSep w).filter
          (fun sw => !sw.isEmpty && isCamelLike sw)).flatten).flatten) []

/-- One entry of the value returned by
`invalid_navigation_paths_single_file` (`camel_case_words` is `[]` when
the Python dict omits the key). -/
structure NavInvalid where
  navigation_path : List Char
  issues : List (List Char)
  camel_case_words : List (List Char)
deriving DecidableEq

/-- `invalid_navigation_paths_single_file` (ToolNavigationPath.py
lines 92-196) over a parsed document. -/
def invalid_navigation_paths_single_file (soup : Node) : List NavInvalid :=
  (navPathsOfSoup soup).filterMap fun nav =>
    let sp := navIncorrectSpacing nav
    let cw := camelWordsOfPath nav
    let issues := (if sp then [pyStr "incorrect_spacing"] else []) ++
      (if !cw.isEmpty then [pyStr "camel_case"] else [])
    if issues.isEmpty then none else some ⟨nav, issues, cw⟩

/-! ### Concrete fixtures used by the end-to-end theorems -/

/-- A document whose single breadcrumb container holds one text node. -/
def navDoc (s : String) : Node := .elem (pyStr "html") [] (nl [
  .elem (pyStr "div") [(pyStr "class", pyStr "Step_1")] (nl [.text (pyStr s)])])

/-- A network oracle on which every probe answers 200. -/
def netOk : Net := ⟨fun _ => .status 200, fun _ => .status 200⟩

/-- Document `A.html`: a single anchor to `B.html`. -/
def docA : Node := .elem (pyStr "html") [] (nl [
  .elem (pyStr "a") [(pyStr "href", pyStr "B.html")] (nl [.text (pyStr "B")])])

/-- Document `A.html`, variant whose anchor carries a fragment. -/
def docA2 : Node := .elem (pyStr "html") [] (nl [
  .elem (pyStr "a") [(pyStr "href", pyStr "B.html#sec")] (nl [.text (pyStr "B")])])

/-- A listing that contains only `A.html` (no `B.html`). -/
def listingA : List Item := [⟨some 1, some (pyStr "A.html")⟩]

/-- The index over `listingA`. -/
def idxA : List (List Char × List Int) := build_html_document_index listingA

/-- A document whose only reference is one external URL. -/
def docExt : Node := .elem (pyStr "html") [] (nl [
  .elem (pyStr "a") [(pyStr "href", pyStr "http://example.invalid/x")]
    (nl [.text (pyStr "x")])])

/-- A two-document listing page (both documents reference the same
external URL through `contentExt`). -/
def pagesTwo : Nat → RawPage := fun _ =>
  ⟨2, [some ⟨some 1, some (pyStr "A.html")⟩,
       some ⟨some 2, some (pyStr "B_x.html")⟩]⟩

/-- Content oracle serving `docExt` for every id. -/
def contentExt : Option Int → Node := fun _ => docExt

/-- A listing page reporting `total_count = 0`. -/
def pagesZero : Nat → RawPage := fun _ =>
  ⟨0, [some ⟨some 1, some (pyStr "A.html")⟩]⟩

/-- A one-document listing page. -/
def pagesOne : Nat → RawPage := fun _ =>
  ⟨1, [some ⟨some 1, some (pyStr "A.html")⟩]⟩

/-- Content oracle serving a document with no references at all. -/
def contentNoLinks : Option Int → Node := fun _ =>
  .elem (pyStr "html") [] (nl [.text (pyStr "hi")])

/-- A document with two marker occurrences outside any note container. -/
def noteDocOutside : Node := .elem (pyStr "html") [] (nl [
  .text (pyStr "Note: first"),
  .elem (pyStr "p") [] (nl [.text (pyStr "Note: second")])])

/-- Content oracle serving `noteDocOutside` for every id. -/
def noteContent : Option Int → Node := fun _ => noteDocOutside

/-! ## Theorems -/

/-! ### Facts about the normalizations (claims C9 and C1) -/

theorem mem_logicalNormalize_fixed {s : List Char} {c : Char}
    (h : c ∈ logicalNormalize s) : pyLowerChar c = c := by
  have hx : c ∈ pyLower (lastSegAfter '/' s) := mem_of_mem_lastSegAfter h
  obtain ⟨d, _, hd⟩ := List.mem_map.mp hx
  rw [← hd, pyLowerChar_idem]

theorem slash_not_mem_logicalNormalize {s : List Char} :
    '/' ∉ logicalNormalize s := by
  intro h
  have hx : '/' ∈ pyLower (lastSegAfter '/' s) := mem_of_mem_lastSegAfter h
  obtain ⟨d, hdmem, hd⟩ := List.mem_map.mp hx
  have : d = '/' := pyLowerChar_eq_low (by left; decide) hd
  subst this
  exact lastSegAfter_not_mem hdmem

/-- Claim C9: the logical-name normalization of the spec (basename of the
path, lower-case, last underscore-delimited segment — exactly the steps
`build_html_document_index` applies to each listed file name) is
idempotent: applying it to an already-normalized name returns the name
unchanged. -/
theorem logicalNormalize_idem (s : List Char) :
    logicalNormalize (logicalNormalize s) = logicalNormalize s := by
  have h1 : lastSegAfter '/' (logicalNormalize s) = logicalNormalize s :=
    lastSegAfter_of_not_mem slash_not_mem_logicalNormalize
  have h2 : pyLower (logicalNormalize s) = logicalNormalize s :=
    pyLower_eq_self fun c hc => mem_logicalNormalize_fixed hc
  have h3 : lastSegAfter '_' (logicalNormalize s) = logicalNormalize s :=
    lastSegAfter_of_not_mem (lastSegAfter_not_mem (l := pyLower (lastSegAfter '/' s)))
  calc logicalNormalize (logicalNormalize s)
      = lastSegAfter '_' (pyLower (lastSegAfter '/' (logicalNormalize s))) := rfl
    _ = lastSegAfter '_' (pyLower (logicalNormalize s)) := by rw [h1]
    _ = lastSegAfter '_' (logicalNormalize s) := by rw [h2]
    _ = logicalNormalize s := h3

theorem containsSub_single_eq_false {c : Char} {l : List Char}
    (h : c ∉ l) : containsSub [c] l = false := by
  induction l with
  | nil => rfl
  | cons d ds ih =>
    rw [containsSub]
    have hcd : c ≠ d := fun hc => h (hc ▸ List.mem_cons_self d ds)
    have h2 : containsSub [c] ds = false := ih fun hc => h (List.mem_cons_of_mem d hc)
    simp [List.isPrefixOf, h2]
    intro hq
    exact absurd hq.symm (Ne.symm hcd)

theorem pySplitScheme_of_no_colon {l : List Char} (h : ':' ∉ l) :
    pySplitScheme l = ([], l) := by
  rw [pySplitScheme]
  have hpre : l.takeWhile (fun d => d ≠ ':') = l := by
    apply takeWhile_eq_self_of_all
    intro c hc
    simp only [ne_eq, decide_eq_true_eq]
    rintro rfl
    exact h hc
  rw [hpre, if_neg]
  intro hcond
  exact absurd hcond.1 (lt_irrefl _)

theorem pyUrlparsePath_of_plain {href : List Char}
    (hcolon : ':' ∉ href) (hhash : '#' ∉ href) (hq : '?' ∉ href)
    (hsemi : ';' ∉ href) (hnet : pyStartsWith (pyStr "//") href = false) :
    pyUrlparsePath href = href := by
  rw [pyUrlparsePath, pySplitScheme_of_no_colon hcolon]
  simp only
  have h2 : pyDropNetloc href = href := by
    rw [pyDropNetloc, if_neg (by rw [hnet]; exact Bool.false_ne_true)]
  rw [h2]
  have h3 : beforeFirst '#' href = href := by
    apply takeWhile_eq_self_of_all
    intro c hc
    simp only [ne_eq, decide_eq_true_eq]
    rintro rfl
    exact hhash hc
  rw [h3]
  have h4 : beforeFirst '?' href = href := by
    apply takeWhile_eq_self_of_all
    intro c hc
    simp only [ne_eq, decide_eq_true_eq]
    rintro rfl
    exact hq hc
  rw [h4]
  have h5 : containsSub (pyStr ";") href = false := by
    have he : pyStr ";" = [';'] := rfl
    rw [he]
    exact containsSub_single_eq_false hsemi
  rw [h5]
  simp

/-- Counterexample to claim C1 as stated: on the prefixed physical
filename `Xerox_en-US_0001485246.html` the checker normalization
`normalize_html_href` keeps the full lower-cased basename, while the
§4.1 normalization used by `build_html_document_index` reduces it to the
last underscore-delimited segment; the two keys differ, so the reference
is looked up under a key the Index never stores. -/
theorem normalize_html_href_ne_specNormalize_counterexample :
    normalize_html_href (pyStr "Xerox_en-US_0001485246.html") =
      pyStr "xerox_en-us_0001485246.html" ∧
    specNormalizeHref (pyStr "Xerox_en-US_0001485246.html") =
      pyStr "0001485246.html" ∧
    normalize_html_href (pyStr "Xerox_en-US_0001485246.html") ≠
      specNormalizeHref (pyStr "Xerox_en-US_0001485246.html") := by
  refine ⟨by decide, by decide, by decide⟩

/-- Claim C1, amended: `normalize_html_href` performs only the basename
and lower-casing steps of the §4.1 normalization and does not reduce to
the last underscore-delimited segment.  For every plain relative href
(no `:`, `#`, `?`, `;` and no leading `//`), the Index key of §4.1 is
obtained from the checker normalization by additionally splitting on
`_`; consequently the two normalizations agree exactly when the
lower-cased basename contains no underscore. -/
theorem normalize_html_href_vs_index_key (href : List Char)
    (hcolon : ':' ∉ href) (hhash : '#' ∉ href) (hq : '?' ∉ href)
    (hsemi : ';' ∉ href) (hnet : pyStartsWith (pyStr "//") href = false) :
    specNormalizeHref href = lastSegAfter '_' (normalize_html_href href) ∧
    ('_' ∉ normalize_html_href href →
      normalize_html_href href = specNormalizeHref href) := by
  have hpath : pyUrlparsePath href = href :=
    pyUrlparsePath_of_plain hcolon hhash hq hsemi hnet
  constructor
  · rw [specNormalizeHref, normalize_html_href, hpath]
  · intro hu
    rw [specNormalizeHref, normalize_html_href, hpath] at *
    exact (lastSegAfter_of_not_mem hu).symm

theorem normalize_html_href_vs_index_key_witness :
    specNormalizeHref (pyStr "docs/0001485246.html") =
      lastSegAfter '_' (normalize_html_href (pyStr "docs/0001485246.html")) ∧
    normalize_html_href (pyStr "docs/0001485246.html") =
      specNormalizeHref (pyStr "docs/0001485246.html") := by
  have h := normalize_html_href_vs_index_key (pyStr "docs/0001485246.html")
    (by decide) (by decide) (by decide) (by decide) (by decide)
  exact ⟨h.1, h.2 (by decide)⟩

/-! ### The index never stores a falsy id (claim C10) -/

theorem dictSetdefaultAppend_nonzero {d : List (List Char × List Int)}
    {k : List Char} {v : Int} (hd : IndexNonzero d) (hv : v ≠ 0) :
    IndexNonzero (dictSetdefaultAppend d k v) := by
  induction d with
  | nil =>
    intro p hp i hi
    simp [dictSetdefaultAppend] at hp
    subst hp
    simp at hi
    subst hi
    exact hv
  | cons q rest ih =>
    obtain ⟨k', vs⟩ := q
    intro p hp i hi
    rw [dictSetdefaultAppend] at hp
    split at hp
    · rcases List.mem_cons.mp hp with h | h
      · subst h
        simp at hi
        rcases hi with hi | hi
        · exact hd (k', vs) (List.mem_cons_self _ _) i hi
        · subst hi; exact hv
      · exact hd p (List.mem_cons_of_mem _ h) i hi
    · rcases List.mem_cons.mp hp with h | h
      · subst h
        exact hd (k', vs) (List.mem_cons_self _ _) i hi
      · exact ih (fun q hq => hd q (List.mem_cons_of_mem _ hq)) p h i hi

theorem indexStep_nonzero {d : List (List Char × List Int)} {it : Item}
    (hd : IndexNonzero d) : IndexNonzero (indexStep d it) := by
  rw [indexStep]
  rcases hn : it.file_name with _ | name <;> rcases hi : it.id with _ | fid <;>
    simp only
  any_goals exact hd
  split
  case isFalse => exact hd
  case isTrue h =>
    split
    case isFalse => exact hd
    case isTrue => exact dictSetdefaultAppend_nonzero hd h.2

theorem build_index_nonzero (items : List Item) :
    IndexNonzero (build_html_document_index items) := by
  rw [build_html_document_index]
  have : ∀ acc, IndexNonzero acc → IndexNonzero (items.foldl indexStep acc) := by
    induction items with
    | nil => intro acc h; exact h
    | cons it rest ih =>
      intro acc h
      exact ih _ (indexStep_nonzero h)
  exact this [] (by intro p hp; simp at hp)

theorem mem_of_mem_dictGet {d : List (List Char × List Int)} {k : List Char}
    {i : Int} (h : i ∈ dictGet d k) : ∃ vs, (k, vs) ∈ d ∧ i ∈ vs := by
  induction d with
  | nil => simp [dictGet] at h
  | cons q rest ih =>
    obtain ⟨k', vs⟩ := q
    rw [dictGet] at h
    split at h
    case isTrue heq => exact ⟨vs, by simp [heq], h⟩
    case isFalse =>
      obtain ⟨vs', hmem, hivs⟩ := ih h
      exact ⟨vs', List.mem_cons_of_mem _ hmem, hivs⟩

theorem indexStep_of_falsy {d : List (List Char × List Int)} {it : Item}
    (h : it.id = none ∨ it.id = some 0 ∨ it.file_name = none ∨
      it.file_name = some []) : indexStep d it = d := by
  rw [indexStep]
  rcases hn : it.file_name with _ | name <;> rcases hi : it.id with _ | fid <;>
    simp only
  rw [if_neg]
  rcases h with h | h | h | h <;> rw [hn, hi] at * <;> simp_all

/-- Claim C10: `build_html_document_index` indexes an entry only when both
its file name and its id are truthy.  An entry with id `None`, id `0`, a
missing name or an empty name is silently skipped (removing it from the
listing leaves the index unchanged), no bucket of the index contains the
id `0`, and a document listed with id `0` is never returned by a bucket
lookup, so it can never satisfy a same-corpus reference. -/
theorem buildIndex_skips_falsy (items : List Item) (k : List Char)
    (pre post : List Item) (bad : Item)
    (hbad : bad.id = none ∨ bad.id = some 0 ∨ bad.file_name = none ∨
      bad.file_name = some []) :
    (∀ p ∈ build_html_document_index items, ∀ i ∈ p.2, i ≠ 0) ∧
    (0 : Int) ∉ dictGet (build_html_document_index items) k ∧
    build_html_document_index (pre ++ bad :: post) =
      build_html_document_index (pre ++ post) := by
  refine ⟨build_index_nonzero items, ?_, ?_⟩
  · intro h
    obtain ⟨vs, hmem, hivs⟩ := mem_of_mem_dictGet h
    exact build_index_nonzero items (k, vs) hmem 0 hivs rfl
  · rw [build_html_document_index, build_html_document_index,
      List.foldl_append, List.foldl_append, List.foldl_cons,
      indexStep_of_falsy hbad]

theorem buildIndex_skips_falsy_witness :
    (∀ p ∈ build_html_document_index
        [⟨some 5, some (pyStr "A_b.html")⟩, ⟨some 0, some (pyStr "c.html")⟩],
      ∀ i ∈ p.2, i ≠ 0) ∧
    (0 : Int) ∉ dictGet (build_html_document_index
        [⟨some 5, some (pyStr "A_b.html")⟩, ⟨some 0, some (pyStr "c.html")⟩])
      (pyStr "b.html") ∧
    build_html_document_index
        ([⟨some 5, some (pyStr "A_b.html")⟩] ++
          (⟨some 0, some (pyStr "c.html")⟩ : Item) :: []) =
      build_html_document_index ([⟨some 5, some (pyStr "A_b.html")⟩] ++ []) :=
  buildIndex_skips_falsy _ (pyStr "b.html") _ _ _ (Or.inr (Or.inl rfl))

/-! ### Same-corpus classification (claim C4) -/

/-- Claim C4: for every index and every reference that reaches the
same-corpus branch of `check_link` (not external, not a fragment, and
containing `.html` in its lower-cased target), with `n` the number of
ids in the index bucket of the normalized logical name: `n = 1` gives a
healthy result (status 200, not broken, removed by the broken-only
boundary filter); `n > 1` gives status `"Ambiguous"`, broken, with an
error naming the collision; `n = 0` gives status 404, broken, with a
`not found in collection` error. -/
theorem same_corpus_classification (net : Net)
    (index : List (List Char × List Int)) (sf : List Char) (link : LinkInfo)
    (h1 : (pyStartsWith (pyStr "http://") link.href ||
      pyStartsWith (pyStr "https://") link.href) = false)
    (h2 : pyStartsWith (pyStr "#") link.href = false)
    (h3 : containsSub (pyStr ".html") (pyLower link.href) = true) :
    ((dictGet index (normalize_html_href link.href)).length = 1 →
      (check_link net index sf link).status = .code 200 ∧
      (check_link net index sf link).is_broken = false ∧
      ([check_link net index sf link].filter (fun r => r.is_broken)) = []) ∧
    (1 < (dictGet index (normalize_html_href link.href)).length →
      (check_link net index sf link).status = .strv (pyStr "Ambiguous") ∧
      (check_link net index sf link).is_broken = true ∧
      (check_link net index sf link).error =
        pyStr "Multiple documents resolve to " ++ [sq] ++
          normalize_html_href link.href ++ [sq]) ∧
    ((dictGet index (normalize_html_href link.href)).length = 0 →
      (check_link net index sf link).status = .code 404 ∧
      (check_link net index sf link).is_broken = true ∧
      (check_link net index sf link).error =
        pyStr "Logical HTML " ++ [sq] ++ normalize_html_href link.href ++
          [sq] ++ pyStr " not found in collection") := by
  have hck : check_link net index sf link =
      { file := sf, href := link.href, text := link.text,
        resolved_url := resolve_url sf link.href,
        status := (resolve_local_html index link.href).status,
        error := (resolve_local_html index link.href).error,
        is_broken := (resolve_local_html index link.href).is_broken } := by
    rw [check_link]
    rw [h1, h2, h3]
    simp
  rw [hck, resolve_local_html]
  simp only
  refine ⟨?_, ?_, ?_⟩
  · intro hn
    rw [if_pos hn]
    simp
  · intro hn
    rw [if_neg (by omega), if_pos hn]
    simp
  · intro hn
    rw [if_neg (by omega), if_neg (by omega)]
    simp

theorem same_corpus_classification_witness :
    ((check_link netOk idxA (pyStr "A.html")
        ⟨pyStr "a.html", pyStr "x"⟩).status = .code 200 ∧
      (check_link netOk idxA (pyStr "A.html")
        ⟨pyStr "a.html", pyStr "x"⟩).is_broken = false ∧
      ([check_link netOk idxA (pyStr "A.html") ⟨pyStr "a.html", pyStr "x"⟩].filter
        (fun r => r.is_broken)) = []) ∧
    ((check_link netOk idxA (pyStr "A.html")
        ⟨pyStr "b.html", pyStr "x"⟩).status = .code 404 ∧
      (check_link netOk idxA (pyStr "A.html")
        ⟨pyStr "b.html", pyStr "x"⟩).is_broken = true ∧
      (check_link netOk idxA (pyStr "A.html") ⟨pyStr "b.html", pyStr "x"⟩).error =
        pyStr "Logical HTML " ++ [sq] ++
          normalize_html_href (pyStr "b.html") ++ [sq] ++
          pyStr " not found in collection") :=
  ⟨(same_corpus_classification netOk idxA (pyStr "A.html")
      ⟨pyStr "a.html", pyStr "x"⟩ (by decide) (by decide) (by decide)).1
    (by decide),
   (same_corpus_classification netOk idxA (pyStr "A.html")
      ⟨pyStr "b.html", pyStr "x"⟩ (by decide) (by decide) (by decide)).2.2
    (by decide)⟩

/-! ### The `.html` extension filter drops bare same-corpus anchors
(claim C2) -/

/-- Claim C2, evaluated at the failing input: in a corpus whose listing
contains only `A.html`, the document `A.html` with `<a href="B.html">`
produces NO finding at all — the anchor is dropped at extraction time
because `excluded_exts` contains `.html` — whereas the claim requires a
Broken same-corpus result.  The variant `B.html#sec`, which escapes the
ends-with filter, shows that the same-corpus machinery would have
reported exactly the claimed Broken(404) result had the href been
extracted. -/
theorem html_anchor_excluded_at_extraction :
    extractLinks docA = [] ∧
    link_checker_single_html netOk idxA docA (pyStr "A.html") = [] ∧
    pyEndsWith (pyStr ".html") (pyLower (pyStr "B.html")) = true ∧
    (pyStr ".html") ∈ excludedExts ∧
    link_checker_single_html netOk idxA docA2 (pyStr "A.html") =
      [⟨pyStr "A.html", pyStr "B.html#sec", pyStr "B.html#sec", .code 404,
        pyStr "Logical HTML " ++ [sq] ++ pyStr "b.html" ++ [sq] ++
          pyStr " not found in collection", pyStr "B"⟩] := by
  refine ⟨rfl, rfl, by decide, by decide, by decide⟩

/-! ### External probes are de-duplicated per document, not per scan
(claim C3) -/

/-- Counterexample to claim C3 as stated: a scan of two documents that
both reference the external URL `http://example.invalid/x` issues two
probe requests for that target (one HEAD per document, each answered
with status 200), not one. -/
theorem external_probe_count_counterexample :
    scanProbeRequestCount netOk pagesTwo contentExt
      (pyStr "http://example.invalid/x") = 2 ∧
    scanProbeRequestCount netOk pagesTwo contentExt
      (pyStr "http://example.invalid/x") ≠ 1 := by
  refine ⟨by decide, by decide⟩

theorem dedup_count (ls : List LinkInfo) (seen : List (List Char))
    (u : List Char) :
    ((dedupLinks ls seen).filter (fun l => l.href = u)).length =
      if u ∈ seen then 0
      else if u ∈ ls.map LinkInfo.href then 1 else 0 := by
  induction ls generalizing seen with
  | nil => simp [dedupLinks]
  | cons l ls ih =>
    rw [dedupLinks]
    split
    case isTrue hmem =>
      rw [ih]
      by_cases hu : u ∈ seen
      · simp [hu]
      · rw [if_neg hu, if_neg hu]
        have : u ∈ ls.map LinkInfo.href ↔ u ∈ (l :: ls).map LinkInfo.href := by
          simp only [List.map_cons, List.mem_cons]
          constructor
          · exact Or.inr
          · rintro (rfl | h)
            · exact absurd hmem hu
            · exact h
        by_cases h2 : u ∈ ls.map LinkInfo.href
        · rw [if_pos h2, if_pos (this.mp h2)]
        · rw [if_neg h2, if_neg (fun hc => h2 (this.mpr hc))]
    case isFalse hmem =>
      rw [List.filter_cons]
      by_cases hlu : l.href = u
      · subst hlu
        rw [if_pos (by simp), List.length_cons, ih,
          if_pos (List.mem_cons_self _ _), if_neg hmem, if_pos (by simp)]
      · rw [if_neg (by simp [hlu]), ih]
        have hseen : (u ∈ l.href :: seen) ↔ u ∈ seen := by
          simp only [List.mem_cons]
          constructor
          · rintro (rfl | h)
            · exact absurd rfl (Ne.symm hlu)
            · exact h
          · exact Or.inr
        have hmap : (u ∈ (l :: ls).map LinkInfo.href) ↔ u ∈ ls.map LinkInfo.href := by
          simp only [List.map_cons, List.mem_cons]
          constructor
          · rintro (rfl | h)
            · exact absurd rfl (Ne.symm hlu)
            · exact h
          · exact Or.inr
        by_cases hu : u ∈ seen
        · rw [if_pos (hseen.mpr hu), if_pos hu]
        · rw [if_neg (fun hc => hu (hseen.mp hc)), if_neg hu]
          by_cases h2 : u ∈ ls.map LinkInfo.href
          · rw [if_pos h2, if_pos (hmap.mpr h2)]
          · rw [if_neg h2, if_neg (fun hc => h2 (hmap.mp hc))]

theorem checkCount_eq (soup : Node) (u : List Char) :
    checkCountForTarget soup u =
      if u ∈ (extractLinks soup).map LinkInfo.href then 1 else 0 := by
  rw [checkCountForTarget, uniqueLinks, dedup_count]
  simp

theorem sum_indicator_eq_filter_length (items : List Item)
    (p : Item → Prop) [DecidablePred p] :
    ((items.map fun it => if p it then 1 else 0).sum) =
      (items.filter (fun it => decide (p it))).length := by
  induction items with
  | nil => rfl
  | cons it rest ih =>
    rw [List.map_cons, List.sum_cons, List.filter_cons]
    by_cases h : p it
    · rw [if_pos h, if_pos (by simp [h]), List.length_cons, ih]
      omega
    · rw [if_neg h, if_neg (by simp [h]), ih]
      omega

/-- Claim C3, amended: during one whole-collection scan an external
target is passed to `check_link` exactly once per document whose
extracted references contain it — de-duplication is per document only,
there is no cross-document cache, so a URL referenced by `k` documents
is probed `k` times, not once. -/
theorem external_checked_once_per_document (fetchPage : Nat → RawPage)
    (content : Option Int → Node) (u : List Char)
    (hu : isExternalHref u = true) :
    scanExternalCheckCount fetchPage content u =
      ((list_all_html_files_in_collection fetchPage 100).filter
        (fun item => decide
          (u ∈ (extractLinks (content item.id)).map LinkInfo.href))).length := by
  rw [scanExternalCheckCount, if_pos hu]
  have : ∀ item : Item, checkCountForTarget (content item.id) u =
      if u ∈ (extractLinks (content item.id)).map LinkInfo.href then 1 else 0 :=
    fun item => checkCount_eq _ _
  rw [List.map_congr_left (fun item _ => this item)]
  exact sum_indicator_eq_filter_length _ _

theorem external_checked_once_per_document_witness :
    scanExternalCheckCount pagesTwo contentExt
      (pyStr "http://example.invalid/x") =
      ((list_all_html_files_in_collection pagesTwo 100).filter
        (fun item => decide
          ((pyStr "http://example.invalid/x") ∈
            (extractLinks (contentExt item.id)).map LinkInfo.href))).length :=
  external_checked_once_per_document pagesTwo contentExt _ (by decide)

/-! ### Zero-document scans are not distinguishable from clean scans
(claim C8) -/

/-- Counterexample to claim C8 as stated: a scan over a listing whose
first page reports `total_count = 0` returns `[]`, and a completed scan
over a one-document collection with no references also returns `[]` —
the very same value, with no `"no documents found"` signal. -/
theorem zero_documents_counterexample :
    html_link_validation_in_collection_by_id netOk pagesZero contentNoLinks = [] ∧
    html_link_validation_in_collection_by_id netOk pagesOne contentNoLinks = [] ∧
    html_link_validation_in_collection_by_id netOk pagesZero contentNoLinks =
      html_link_validation_in_collection_by_id netOk pagesOne contentNoLinks := by
  refine ⟨rfl, rfl, rfl⟩

/-- Claim C8, amended: when the listing reports zero documents the scan
does return early with an empty result, but that result is the plain
empty list — the same value a completed scan with zero defects returns —
so the caller cannot distinguish the two outcomes. -/
theorem zero_documents_scan_empty (net : Net) (fetchPage : Nat → RawPage)
    (content : Option Int → Node) (net2 : Net) (fetchPage2 : Nat → RawPage)
    (content2 : Option Int → Node)
    (h0 : (fetchPage 1).total_count = 0)
    (hclean : ∀ it ∈ list_all_html_files_in_collection fetchPage2 100,
      uniqueLinks (content2 it.id) = []) :
    html_link_validation_in_collection_by_id net fetchPage content = [] ∧
    html_link_validation_in_collection_by_id net2 fetchPage2 content2 = [] ∧
    html_link_validation_in_collection_by_id net fetchPage content =
      html_link_validation_in_collection_by_id net2 fetchPage2 content2 := by
  have hempty : list_all_html_files_in_collection fetchPage 100 = [] := by
    rw [list_all_html_files_in_collection, if_pos h0]
  have h1 : html_link_validation_in_collection_by_id net fetchPage content = [] := by
    rw [html_link_validation_in_collection_by_id, hempty]
    rfl
  have h2 : html_link_validation_in_collection_by_id net2 fetchPage2 content2 = [] := by
    rw [html_link_validation_in_collection_by_id]
    apply List.flatten_eq_nil_iff.mpr
    intro xs hxs
    obtain ⟨item, hitem, hx⟩ := List.mem_map.mp hxs
    rw [← hx, link_checker_single_html, hclean item hitem]
    rfl
  exact ⟨h1, h2, by rw [h1, h2]⟩

theorem zero_documents_scan_empty_witness :
    html_link_validation_in_collection_by_id netOk pagesZero contentNoLinks = [] ∧
    html_link_validation_in_collection_by_id netOk pagesOne contentNoLinks = [] ∧
    html_link_validation_in_collection_by_id netOk pagesZero contentNoLinks =
      html_link_validation_in_collection_by_id netOk pagesOne contentNoLinks :=
  zero_documents_scan_empty netOk pagesZero contentNoLinks netOk pagesOne
    contentNoLinks (by decide) (by decide)

/-! ### Navigation-path spacing (claim C5) -/

/-- Claim C5, evaluated at the inputs the claim names: the
canonicalization passes rewrite every separator glyph — whatever its
original spacing — into ` &amp;gt; ` before the spacing check runs, so
all three breadcrumb paths `A > B > C`, `A>B > C` and `A >B> C`
normalize to the same string and none is flagged; the code emits no
finding for `A>B > C` or `A >B> C`, contradicting the claim.  The last
two conjuncts show the check is not vacuous: a separator at the start of
a path does survive normalization unspaced and is flagged. -/
theorem nav_spacing_not_flagged :
    invalid_navigation_paths_single_file (navDoc "A > B > C") = [] ∧
    invalid_navigation_paths_single_file (navDoc "A>B > C") = [] ∧
    invalid_navigation_paths_single_file (navDoc "A >B> C") = [] ∧
    navPathsOfSoup (navDoc "A>B > C") = [pyStr "A &amp;gt; B &amp;gt; C"] ∧
    navPathsOfSoup (navDoc "A >B> C") = [pyStr "A &amp;gt; B &amp;gt; C"] ∧
    navPathsOfSoup (navDoc ">B") = [pyStr "&amp;gt; B"] ∧
    navIncorrectSpacing (pyStr "&amp;gt; B") = true := by
  refine ⟨by decide, by decide, by decide, by decide, by decide, by decide,
    by decide⟩

/-! ### Bullet margins and forbidden properties (claim C7) -/

/-- Claim C7: for a bullet element whose class list contains a `List_`
class, the rule-1 margin finding is absent exactly when the style
matches `margin-left` with value `18` and unit `pt`; a missing match
yields the missing-margin finding and a differing value or unit yields
the invalid-margin finding.  Independently of the class list and of
margin correctness, rule 2 emits its finding exactly when a `padding` or
`line-height` declaration matches, and the findings of an element are
the concatenation of both rules, so one element can produce two
findings — as the concrete element with a wrong margin and a padding
declaration shows. -/
theorem bullet_margin_and_props (classes : List (List Char)) (style : List Char)
    (hl : classes.any (fun cls => containsSub (pyStr "List_") cls) = true) :
    (marginFindings classes style = [] ↔
      pyMarginSearch style = some (pyStr "18", pyStr "pt")) ∧
    (pyMarginSearch style = none →
      marginFindings classes style = [pyStr "Missing margin-left property"]) ∧
    (∀ v u, pyMarginSearch style = some (v, u) → ¬(v = pyStr "18" ∧ u = pyStr "pt") →
      marginFindings classes style = [pyStr "Invalid margin-left: " ++ v ++ u]) ∧
    (∀ cls2 st2, (propFindings st2 = [] ↔ pyPropsFindall st2 = []) ∧
      bulletElementFindings cls2 st2 = marginFindings cls2 st2 ++ propFindings st2) ∧
    (bulletElementFindings [pyStr "List_1_-_Bullet"]
      (pyStr "margin-left: 20pt; padding: 2px")).length = 2 := by
  refine ⟨?_, ?_, ?_, ?_, by decide⟩
  · rw [marginFindings, if_pos hl]
    rcases hm : pyMarginSearch style with _ | ⟨v, u⟩
    · simp
    · simp only
      by_cases hv : v = pyStr "18" ∧ u = pyStr "pt"
      · rw [if_neg (by tauto)]
        simp [hv.1, hv.2]
      · rw [if_pos (by tauto)]
        constructor
        · intro hc
          exact absurd hc (by simp)
        · intro hc
          injection hc with hc
          injection hc with h1 h2
          exact absurd ⟨h1, h2⟩ hv
  · intro hm
    rw [marginFindings, if_pos hl, hm]
  · intro v u hm hv
    rw [marginFindings, if_pos hl, hm]
    simp only
    rw [if_pos (by tauto)]
  · intro cls2 st2
    constructor
    · rw [propFindings]
      rcases hp : pyPropsFindall st2 with _ | ⟨p, ps⟩ <;> simp
    · rfl

/-! ### Note-rule findings (claim C6)

The flag-threading recursion `noteOutsideNode` is related to the
occurrence-based description `noteOccsNode`: the document is flagged
exactly when some marker occurrence is non-compliant. -/

mutual
theorem noteOutside_eq_node (e : Node)
    (al : List (List Char × List (List Char))) :
    noteOutsideNode (ancHasNoteDiv al) e =
      (noteOccsNode al e).any (fun o => !occCompliant o) := by
  match e with
  | .text s => rfl
  | .elem nm attrs cs =>
    rw [noteOutsideNode, noteOccsNode]
    have h1 : (ancHasNoteDiv al || isNoteDiv nm attrs) =
        ancHasNoteDiv ((nm, pyClasses attrs) :: al) := by
      have h2 : ancHasNoteDiv ((nm, pyClasses attrs) :: al) =
          (isNoteDiv nm attrs || ancHasNoteDiv al) := by
        rw [ancHasNoteDiv, List.any_cons]
        rfl
      rw [h2, Bool.or_comm]
    rw [h1]
    exact noteOutside_eq_children cs al ((nm, pyClasses attrs) :: al)
      (pyClasses attrs)
theorem noteOutside_eq_children (cs : NodeList)
    (al alc : List (List Char × List (List Char))) (pcls : List (List Char)) :
    noteOutsideChildren (ancHasNoteDiv al) pcls (ancHasNoteDiv alc) cs =
      (noteOccsChildren al pcls alc cs).any (fun o => !occCompliant o) := by
  match cs with
  | .nil => rfl
  | .cons (.text s) rest =>
    rw [noteOutsideChildren, noteOccsChildren, List.any_append,
      noteOutside_eq_children rest al alc pcls]
    cases hc : containsSub noteMarker s <;>
      simp [hc, occCompliant, Bool.not_or, Bool.and_assoc]
  | .cons (.elem nm attrs cs2) rest =>
    rw [noteOutsideChildren, noteOccsChildren, List.any_append,
      noteOutside_eq_node (.elem nm attrs cs2) alc,
      noteOutside_eq_children rest al alc pcls]
end

mutual
theorem noteOccs_marker_node (e : Node)
    (al : List (List Char × List (List Char))) (o : NoteOcc)
    (ho : o ∈ noteOccsNode al e) :
    containsSub noteMarker o.textContent = true ∧
      o.textContent ∈ nodeTexts e := by
  match e with
  | .text s => exact absurd ho (by simp [noteOccsNode])
  | .elem nm attrs cs =>
    rw [noteOccsNode] at ho
    exact noteOccs_marker_children cs al (pyClasses attrs)
      ((nm, pyClasses attrs) :: al) o ho
theorem noteOccs_marker_children (cs : NodeList)
    (al : List (List Char × List (List Char))) (pcls : List (List Char))
    (alc : List (List Char × List (List Char))) (o : NoteOcc)
    (ho : o ∈ noteOccsChildren al pcls alc cs) :
    containsSub noteMarker o.textContent = true ∧
      o.textContent ∈ forestTexts cs := by
  match cs with
  | .nil => exact absurd ho (by simp [noteOccsChildren])
  | .cons (.text s) rest =>
    rw [noteOccsChildren] at ho
    rcases List.mem_append.mp ho with h | h
    · by_cases hc : containsSub noteMarker s = true
      · rw [if_pos hc] at h
        simp at h
        subst h
        exact ⟨hc, by rw [forestTexts]; exact List.mem_cons_self _ _⟩
      · rw [if_neg hc] at h
        exact absurd h (by simp)
    · obtain ⟨hm, ht⟩ := noteOccs_marker_children rest al pcls alc o h
      exact ⟨hm, by rw [forestTexts]; exact List.mem_cons_of_mem _ ht⟩
  | .cons (.elem nm attrs cs2) rest =>
    rw [noteOccsChildren] at ho
    rcases List.mem_append.mp ho with h | h
    · obtain ⟨hm, ht⟩ := noteOccs_marker_node (.elem nm attrs cs2) alc o h
      rw [nodeTexts] at ht
      exact ⟨hm, by rw [forestTexts]; exact List.mem_append_left _ ht⟩
    · obtain ⟨hm, ht⟩ := noteOccs_marker_children rest al pcls alc o h
      exact ⟨hm, by rw [forestTexts]; exact List.mem_append_right _ ht⟩
end

/-- Claim C6: a document with no `Note:` marker occurrence in any text
node yields a Valid note check; a document where every occurrence is
compliant (its parent has a `Note`-matching `div` strict ancestor, or
the parent class list is exactly `["Note"]`) yields Valid; a document
with at least one non-compliant occurrence yields Invalid; and
`check_note` keeps exactly one record per Invalid document, however many
occurrences lie outside. -/
theorem note_rule_findings (soup : Node) (f : List Char) (items : List Item)
    (content : Option Int → Node) :
    ((∀ s ∈ soupTexts soup, containsSub noteMarker s = false) →
      (check_single_file_note soup f).status = pyStr "Valid") ∧
    ((∀ o ∈ noteOccurrences soup, occCompliant o = true) →
      (check_single_file_note soup f).status = pyStr "Valid") ∧
    ((∃ o ∈ noteOccurrences soup, occCompliant o = false) →
      (check_single_file_note soup f).status = pyStr "Invalid") ∧
    (check_note items content).length =
      (items.filter (fun it => decide ((check_single_file_note (content it.id)
        (it.file_name.getD [])).status = pyStr "Invalid"))).length := by
  have hmain : foundNoteOutside soup =
      (noteOccurrences soup).any (fun o => !occCompliant o) := by
    rw [foundNoteOutside, noteOccurrences]
    exact noteOutside_eq_node soup []
  refine ⟨?_, ?_, ?_, ?_⟩
  · intro h
    have hfalse : foundNoteOutside soup = false := by
      rw [hmain]
      apply List.any_eq_false.mpr
      intro o ho
      obtain ⟨hm, ht⟩ := noteOccs_marker_node soup [] o ho
      exact absurd hm (by rw [h o.textContent ht]; simp)
    rw [check_single_file_note, hfalse]
    rfl
  · intro h
    have hfalse : foundNoteOutside soup = false := by
      rw [hmain]
      apply List.any_eq_false.mpr
      intro o ho
      rw [h o ho]
      simp
    rw [check_single_file_note, hfalse]
    rfl
  · rintro ⟨o, ho, hno⟩
    have htrue : foundNoteOutside soup = true := by
      rw [hmain]
      apply List.any_eq_true.mpr
      exact ⟨o, ho, by rw [hno]; rfl⟩
    rw [check_single_file_note, htrue]
    rfl
  · rw [check_note, List.filter_map, List.length_map]
    rfl

theorem note_rule_findings_witness :
    (check_single_file_note noteDocOutside (pyStr "f.html")).status =
      pyStr "Invalid" ∧
    (check_note listingA noteContent).length =
      (listingA.filter (fun it => decide ((check_single_file_note
        (noteContent it.id) (it.file_name.getD [])).status =
          pyStr "Invalid"))).length ∧
    (check_note listingA noteContent).length = 1 :=
  ⟨(note_rule_findings noteDocOutside (pyStr "f.html") listingA
      noteContent).2.2.1 (by decide),
   (note_rule_findings noteDocOutside (pyStr "f.html") listingA
      noteContent).2.2.2,
   by decide⟩

theorem bullet_margin_and_props_witness :
    (marginFindings [pyStr "List_1_-_Bullet"] (pyStr "margin-left: 18pt") = [] ↔
      pyMarginSearch (pyStr "margin-left: 18pt") =
        some (pyStr "18", pyStr "pt")) ∧
    marginFindings [pyStr "List_1_-_Bullet"] (pyStr "") =
      [pyStr "Missing margin-left property"] ∧
    marginFindings [pyStr "List_1_-_Bullet"] (pyStr "margin-left: 20pt") =
      [pyStr "Invalid margin-left: " ++ pyStr "20" ++ pyStr "pt"] ∧
    (bulletElementFindings [pyStr "List_1_-_Bullet"]
      (pyStr "margin-left: 20pt; padding: 2px")).length = 2 := by
  have h18 := bullet_margin_and_props [pyStr "List_1_-_Bullet"]
    (pyStr "margin-left: 18pt") (by decide)
  have hmiss := bullet_margin_and_props [pyStr "List_1_-_Bullet"]
    (pyStr "") (by decide)
  have h20 := bullet_margin_and_props [pyStr "List_1_-_Bullet"]
    (pyStr "margin-left: 20pt") (by decide)
  exact ⟨h18.1, hmiss.2.1 (by decide),
    h20.2.2.1 (pyStr "20") (pyStr "pt") (by decide) (by decide),
    h20.2.2.2.2⟩

end Audit
